import Mathlib

/-!
Verification of the gaze static analyzer (github.com/jflowers/gaze).

This file shallowly embeds the parts of the Go source that the checked
claims are about: the taxonomy data model and stable ID hashing
(`internal/taxonomy`), the classification engine (`internal/classify`),
the configuration loader (`internal/config`), the package loader
(`internal/loader`), the analyze command of the CLI (`cmd/gaze`), and the
effect detectors of `internal/analysis`.

Pure Go functions become Lean functions; machine integers become `Int`
(Go `int` overflow is irrelevant at the value ranges involved: scores are
clamped to `[0,100]` and weights are small constants); Go slices become
lists; Go pointer identity (of `*types.Package` / `types.Object`) becomes
`Nat` identifiers; fallible Go functions return `Except`.  External
collaborators (the `go/packages` loader, `yaml.v3`, `os.ReadFile`,
`time.ParseDuration`, and the four signal analyzers whose files are not
part of the source tree) are taken as explicit function parameters, so
every theorem quantifies over their behavior.
-/

set_option maxHeartbeats 1000000

namespace Gaze

/-! ## Taxonomy data model (`internal/taxonomy`, part_005) -/

/-- taxonomy.Signal: a single piece of evidence contributing to a
classification confidence score.  `sourceFile`, `excerpt` and `reasoning`
are the verbose-only detail fields. -/
structure Signal where
  source : String
  weight : Int
  sourceFile : String
  excerpt : String
  reasoning : String
deriving DecidableEq, Repr

/-- The zero-valued `taxonomy.Signal` (Go `taxonomy.Signal{}`), meaning
"no evidence". -/
def Signal.zero : Signal :=
  { source := "", weight := 0, sourceFile := "", excerpt := "", reasoning := "" }

/-- taxonomy.ClassificationLabel: the closed label set.  Go represents the
three values as the lowercase strings "contractual", "incidental",
"ambiguous". -/
inductive ClassificationLabel where
  | contractual
  | incidental
  | ambiguous
deriving DecidableEq, Repr

/-- taxonomy.Classification: label, confidence, contributing signals and
an optional human-readable summary. -/
structure Classification where
  label : ClassificationLabel
  confidence : Int
  signals : List Signal
  reasoning : String
deriving DecidableEq, Repr

/-- taxonomy.SideEffect: one detected observable change.  `type` and
`tier` are Go string enums and stay strings here. -/
structure SideEffect where
  id : String
  type : String
  tier : String
  location : String
  description : String
  target : String
  classification : Option Classification
deriving DecidableEq, Repr

/-- taxonomy.FunctionTarget: the function under analysis. -/
structure FunctionTarget where
  package : String
  function : String
  receiver : String
  signature : String
  location : String
deriving DecidableEq, Repr

/-- taxonomy.Metadata: analysis run metadata (duration kept in
milliseconds, as serialized). -/
structure Metadata where
  gazeVersion : String
  goVersion : String
  durationMs : Int
  warnings : List String
deriving DecidableEq, Repr

/-- taxonomy.AnalysisResult: the complete output for one function. -/
structure AnalysisResult where
  target : FunctionTarget
  sideEffects : List SideEffect
  metadata : Metadata
deriving DecidableEq, Repr

/-! ## Configuration (`internal/config/config.go`) -/

namespace Config

/-- config.Thresholds: confidence score boundaries for labels. -/
structure Thresholds where
  contractual : Int
  incidental : Int
deriving DecidableEq, Repr

/-- config.DocScan: document scanning configuration.  `timeout` is the
parsed duration in nanoseconds (Go `time.Duration`); `timeoutStr` is the
raw YAML string.  The Go field `Include` is named `includeGlobs` here
because `include` is reserved in Lean. -/
structure DocScan where
  exclude : List String
  includeGlobs : List String
  timeout : Int
  timeoutStr : String
deriving DecidableEq, Repr

/-- config.ClassificationConfig. -/
structure ClassificationConfig where
  thresholds : Thresholds
  docScan : DocScan
deriving DecidableEq, Repr

/-- config.GazeConfig: the top-level configuration. -/
structure GazeConfig where
  classification : ClassificationConfig
deriving DecidableEq, Repr

/-- config.DefaultConfig: thresholds 80/50, the nine-entry exclude list,
a 30s doc-scan timeout (30 000 000 000 ns). -/
def DefaultConfig : GazeConfig :=
  { classification :=
    { thresholds := { contractual := 80, incidental := 50 }
      docScan :=
      { exclude :=
          ["vendor/**", "node_modules/**", ".git/**", "testdata/**",
           "CHANGELOG.md", "CONTRIBUTING.md", "CODE_OF_CONDUCT.md",
           "LICENSE", "LICENSE.md"]
        includeGlobs := []
        timeout := 30000000000
        timeoutStr := "30s" } } }

end Config

/-! ## Score composer (`internal/classify`) -/

/-- Whether a signal list triggers the contradiction penalty: it holds
both a strictly positive and a strictly negative weight. -/
def contradicted (signals : List Signal) : Bool :=
  (signals.any fun s => decide (0 < s.weight)) &&
    (signals.any fun s => decide (s.weight < 0))

/-- Modelled from the spec: the score composer `ComputeScore` of package
`classify`.  Its source file is not under `src/`; spec section 4.5 fixes
the algorithm (base 50 plus the signal weight sum, a contradiction
penalty of 20 when both strictly positive and strictly negative weights
occur, clamp to `[0,100]`, threshold labels) and the classify tests pin
every branch, including that a nil configuration means the defaults.
The returned classification carries the input signals. -/
def ComputeScore (signals : List Signal) (cfg : Option Config.GazeConfig) :
    Classification :=
  let th := (cfg.getD Config.DefaultConfig).classification.thresholds
  let base : Int := 50 + (signals.map Signal.weight).sum
  let total : Int := if contradicted signals then base - 20 else base
  let conf : Int := if total < 0 then 0 else if 100 < total then 100 else total
  let label :=
    if th.contractual ≤ conf then ClassificationLabel.contractual
    else if conf < th.incidental then ClassificationLabel.incidental
    else ClassificationLabel.ambiguous
  { label := label, confidence := conf, signals := signals, reasoning := "" }

/-- Written from the words of claim C1 (spec section 4.5, steps 1-2):
50 plus the sum of all signal weights, minus a contradiction penalty of
20 exactly when the list contains both a strictly positive and a strictly
negative weight. -/
def specRawScore (signals : List Signal) : Int :=
  50 + (signals.map Signal.weight).sum -
    (if (∃ s ∈ signals, 0 < s.weight) ∧ (∃ s ∈ signals, s.weight < 0)
     then 20 else 0)

/-- The contradiction test of the code agrees with the claim's
"contains both a strictly positive and a strictly negative weight". -/
theorem contradicted_iff (signals : List Signal) :
    contradicted signals = true ↔
      (∃ s ∈ signals, 0 < s.weight) ∧ (∃ s ∈ signals, s.weight < 0) := by
  simp [contradicted, List.any_eq_true]

/-- Clamping written as an if-chain equals `min 100 (max 0 _)`. -/
theorem clamp_eq (x : Int) :
    (if x < 0 then (0 : Int) else if 100 < x then 100 else x) =
      min 100 (max 0 x) := by
  rw [min_def, max_def]
  split_ifs <;> omega

/-- C1: for every finite signal list and configuration, `ComputeScore`
returns a confidence equal to 50 plus the sum of the weights, minus a
contradiction penalty of 20 exactly when the list holds both a strictly
positive and a strictly negative weight, clamped to `[0,100]`; the label
is contractual when the score reaches the contractual threshold,
incidental when it is below the incidental threshold, and ambiguous
otherwise; the empty signal list under the default (nil) configuration
yields confidence 50 and label ambiguous. -/
theorem computeScore_spec (signals : List Signal)
    (cfg : Option Config.GazeConfig) :
    (ComputeScore signals cfg).confidence =
        min 100 (max 0 (specRawScore signals))
    ∧ (ComputeScore signals cfg).label =
        (if (cfg.getD Config.DefaultConfig).classification.thresholds.contractual ≤
              (ComputeScore signals cfg).confidence
         then ClassificationLabel.contractual
         else if (ComputeScore signals cfg).confidence <
              (cfg.getD Config.DefaultConfig).classification.thresholds.incidental
         then ClassificationLabel.incidental
         else ClassificationLabel.ambiguous)
    ∧ (ComputeScore [] cfg).confidence = 50
    ∧ (ComputeScore [] none).label = ClassificationLabel.ambiguous := by
  refine ⟨?_, ?_, ?_, ?_⟩
  · rw [← clamp_eq]
    cases hc : contradicted signals with
    | true =>
      have h := (contradicted_iff signals).mp hc
      simp only [ComputeScore, specRawScore, hc, if_true, if_pos h]
    | false =>
      have h : ¬((∃ s ∈ signals, 0 < s.weight) ∧ (∃ s ∈ signals, s.weight < 0)) := by
        intro hx
        rw [(contradicted_iff signals).mpr hx] at hc
        exact absurd hc (by decide)
      simp only [ComputeScore, specRawScore, hc, Bool.false_eq_true, if_false,
        if_neg h]
      split_ifs <;> omega
  · rfl
  · simp [ComputeScore, contradicted]
  · rfl

/-- C2 counterexample: removing the strictly positive signal of weight 5
from the list `[+5, -30]` removes the contradiction penalty and RAISES
the confidence from 5 to 20, refuting the claim that removing a
positive-weight signal never increases the confidence. -/
theorem computeScore_monotonicity_counterexample :
    0 < (Signal.mk "interface" 5 "" "" "").weight
    ∧ (ComputeScore [Signal.mk "naming" (-30) "" "" ""] none).confidence >
        (ComputeScore [Signal.mk "interface" 5 "" "" "",
                       Signal.mk "naming" (-30) "" "" ""] none).confidence := by
  constructor
  · decide
  · decide

/-- C2 (amended): removing one strictly-positive-weight signal never
increases the confidence, and removing one strictly-negative-weight
signal never decreases it, provided the removal does not change whether
the contradiction penalty applies. -/
theorem computeScore_monotone_removal (cfg : Option Config.GazeConfig)
    (l₁ l₂ : List Signal) (s : Signal)
    (hpen : contradicted (l₁ ++ l₂) = contradicted (l₁ ++ s :: l₂)) :
    (0 < s.weight →
      (ComputeScore (l₁ ++ l₂) cfg).confidence ≤
        (ComputeScore (l₁ ++ s :: l₂) cfg).confidence)
    ∧ (s.weight < 0 →
      (ComputeScore (l₁ ++ s :: l₂) cfg).confidence ≤
        (ComputeScore (l₁ ++ l₂) cfg).confidence) := by
  have hsum : ((l₁ ++ s :: l₂).map Signal.weight).sum =
      ((l₁ ++ l₂).map Signal.weight).sum + s.weight := by
    simp [List.map_append, List.sum_append]
    ring
  have key : ∀ x y : Int, x ≤ y →
      (if x < 0 then (0 : Int) else if 100 < x then 100 else x) ≤
        (if y < 0 then (0 : Int) else if 100 < y then 100 else y) := by
    intro x y h
    rw [clamp_eq, clamp_eq]
    exact min_le_min le_rfl (max_le_max le_rfl h)
  constructor
  · intro hpos
    unfold ComputeScore
    simp only [← hpen, hsum]
    cases hc : contradicted (l₁ ++ l₂) <;> simp only [if_true, if_false,
      Bool.false_eq_true] <;> exact key _ _ (by omega)
  · intro hneg
    unfold ComputeScore
    simp only [← hpen, hsum]
    cases hc : contradicted (l₁ ++ l₂) <;> simp only [if_true, if_false,
      Bool.false_eq_true] <;> exact key _ _ (by omega)

/-- C2 witness: the amended monotonicity at a concrete input.  Removing
the `+10` naming signal from `[+30, +10, -5]` (the penalty applies before
and after) does not raise the confidence, and removing the `-5` signal
from the same list does not lower it. -/
theorem computeScore_monotone_removal_witness :
    (ComputeScore [Signal.mk "interface" 30 "" "" "",
                   Signal.mk "visibility" (-5) "" "" ""] none).confidence ≤
      (ComputeScore [Signal.mk "interface" 30 "" "" "",
                     Signal.mk "naming" 10 "" "" "",
                     Signal.mk "visibility" (-5) "" "" ""] none).confidence := by
  have h := computeScore_monotone_removal none
    [Signal.mk "interface" 30 "" "" ""]
    [Signal.mk "visibility" (-5) "" "" ""]
    (Signal.mk "naming" 10 "" "" "") (by decide)
  exact h.1 (by decide)

/-! ## Classification engine (`internal/classify/classify.go`)

`Classify` walks the analysis results and attaches a classification to
every contained side effect.  The five signal analyzers (only the caller
analyzer's source is in the tree) receive data that `Classify` derives
from the target package purely by the function's name (`buildFuncDeclMap`
/ `buildFuncObjMap` lookups and the receiver type of the found object),
so they are abstracted here as arbitrary functions of the function name
and the effect type. -/

/-- classify.Options: configuration, with `ModulePackages`/`TargetPkg`
absorbed into the `Analyzers` parameter. -/
structure ClassifyOptions where
  config : Option Config.GazeConfig
  verbose : Bool

/-- The five mechanical signal analyzers, in the order `classifySideEffect`
invokes them: interface, visibility, caller, naming, godoc. -/
structure Analyzers where
  interfaceSignal : String → String → Signal
  visibilitySignal : String → String → Signal
  callerSignal : String → String → Signal
  namingSignal : String → String → Signal
  godocSignal : String → String → Signal

/-- classify.classifySideEffect: run the five analyzers in the fixed
order and append each returned signal unless it is zero-valued (empty
`source`). -/
def classifySideEffect (a : Analyzers) (funcName effectType : String) :
    List Signal :=
  let signals : List Signal := []
  let signals := if (a.interfaceSignal funcName effectType).source ≠ "" then
      signals ++ [a.interfaceSignal funcName effectType] else signals
  let signals := if (a.visibilitySignal funcName effectType).source ≠ "" then
      signals ++ [a.visibilitySignal funcName effectType] else signals
  let signals := if (a.callerSignal funcName effectType).source ≠ "" then
      signals ++ [a.callerSignal funcName effectType] else signals
  let signals := if (a.namingSignal funcName effectType).source ≠ "" then
      signals ++ [a.namingSignal funcName effectType] else signals
  let signals := if (a.godocSignal funcName effectType).source ≠ "" then
      signals ++ [a.godocSignal funcName effectType] else signals
  signals

/-- The detail-stripping that `Classify` applies to each signal of a
classification when `Verbose` is off. -/
def stripSignalDetail (s : Signal) : Signal :=
  { s with sourceFile := "", excerpt := "", reasoning := "" }

/-- The body of `Classify`'s inner loop for one side effect: compute the
signals, compose the score, strip detail fields unless verbose, and
attach the classification. -/
def classifyOneEffect (a : Analyzers) (cfg : Config.GazeConfig)
    (verbose : Bool) (funcName : String) (se : SideEffect) : SideEffect :=
  let signals := classifySideEffect a funcName se.type
  let classification := ComputeScore signals (some cfg)
  let classification :=
    if verbose then classification
    else { classification with
           signals := classification.signals.map stripSignalDetail }
  { se with classification := some classification }

/-- classify.Classify: classify each side effect of each result in place
(value semantics here: the returned list carries the updated effects).
A nil configuration is replaced by the defaults before scoring. -/
def Classify (a : Analyzers) (results : List AnalysisResult)
    (opts : ClassifyOptions) : List AnalysisResult :=
  let cfg := opts.config.getD Config.DefaultConfig
  results.map fun r =>
    let classifyEffect := classifyOneEffect a cfg opts.verbose r.target.function
    { r with sideEffects := r.sideEffects.map classifyEffect }

/-- A list is `Forall₂`-related to its image under a map by the
pointwise relation. -/
theorem forall₂_map_self {α β : Type} (R : α → β → Prop) (f : α → β)
    (l : List α) (h : ∀ x ∈ l, R x (f x)) : List.Forall₂ R l (l.map f) := by
  induction l with
  | nil => exact List.Forall₂.nil
  | cons x xs ih =>
      exact List.Forall₂.cons (h x (by simp))
        (ih fun y hy => h y (by simp [hy]))

/-- C3: `Classify` attaches a classification to every side effect of
every result and changes nothing else — each effect's id, type, tier,
location, description and target, and each result's target and metadata,
are preserved — and when `Verbose` is off every signal of every attached
classification has empty `SourceFile`, `Excerpt` and `Reasoning`. -/
theorem classify_frame (a : Analyzers) (opts : ClassifyOptions)
    (results : List AnalysisResult) :
    List.Forall₂ (fun r r' =>
      r'.target = r.target ∧ r'.metadata = r.metadata ∧
      List.Forall₂ (fun se se' =>
        se'.id = se.id ∧ se'.type = se.type ∧ se'.tier = se.tier ∧
        se'.location = se.location ∧ se'.description = se.description ∧
        se'.target = se.target ∧ se'.classification.isSome = true ∧
        (opts.verbose = false → ∀ c, se'.classification = some c →
          ∀ s ∈ c.signals,
            s.sourceFile = "" ∧ s.excerpt = "" ∧ s.reasoning = ""))
        r.sideEffects r'.sideEffects)
      results (Classify a results opts) := by
  unfold Classify
  apply forall₂_map_self
  intro r _
  refine ⟨rfl, rfl, ?_⟩
  apply forall₂_map_self
  intro se _
  refine ⟨rfl, rfl, rfl, rfl, rfl, rfl, rfl, ?_⟩
  intro hv c hc s hs
  simp only [classifyOneEffect, hv, Bool.false_eq_true, if_false] at hc
  injection hc with hX
  subst hX
  simp only [List.mem_map] at hs
  obtain ⟨s₀, _, rfl⟩ := hs
  exact ⟨rfl, rfl, rfl⟩

/-- C3 witness: the frame property at a concrete input — one result with
one `ReturnValue` side effect, analyzers that fill every detail field,
and verbose off. -/
theorem classify_frame_witness :
    List.Forall₂ (fun r r' =>
      r'.target = r.target ∧ r'.metadata = r.metadata ∧
      List.Forall₂ (fun se se' =>
        se'.id = se.id ∧ se'.type = se.type ∧ se'.tier = se.tier ∧
        se'.location = se.location ∧ se'.description = se.description ∧
        se'.target = se.target ∧ se'.classification.isSome = true ∧
        ((false : Bool) = false → ∀ c, se'.classification = some c →
          ∀ s ∈ c.signals,
            s.sourceFile = "" ∧ s.excerpt = "" ∧ s.reasoning = ""))
        r.sideEffects r'.sideEffects)
      [AnalysisResult.mk
        (FunctionTarget.mk "example.com/p" "GetData" "" "func() int" "p.go:3:1")
        [SideEffect.mk "se-00000000" "ReturnValue" "P0" "p.go:3:1"
          "returns int" "int" none]
        (Metadata.mk "dev" "go1" 0 [])]
      (Classify
        (Analyzers.mk
          (fun _ _ => Signal.mk "interface" 30 "iface.go" "Reader" "implements")
          (fun _ _ => Signal.mk "visibility" 10 "p.go" "GetData" "exported")
          (fun _ _ => Signal.zero)
          (fun _ _ => Signal.mk "naming" 10 "p.go" "GetData" "Get prefixed")
          (fun _ _ => Signal.zero))
        [AnalysisResult.mk
          (FunctionTarget.mk "example.com/p" "GetData" "" "func() int" "p.go:3:1")
          [SideEffect.mk "se-00000000" "ReturnValue" "P0" "p.go:3:1"
            "returns int" "int" none]
          (Metadata.mk "dev" "go1" 0 [])]
        (ClassifyOptions.mk none false)) :=
  classify_frame _ (ClassifyOptions.mk none false) _

/-- `classifySideEffect` equals filtering the five analyzer outputs, in
order, by a nonempty source. -/
theorem classifySideEffect_eq_filter (a : Analyzers) (fn ty : String) :
    classifySideEffect a fn ty =
      ([a.interfaceSignal fn ty, a.visibilitySignal fn ty,
        a.callerSignal fn ty, a.namingSignal fn ty,
        a.godocSignal fn ty].filter fun s => s.source ≠ "") := by
  unfold classifySideEffect
  by_cases h1 : (a.interfaceSignal fn ty).source = "" <;>
    by_cases h2 : (a.visibilitySignal fn ty).source = "" <;>
      by_cases h3 : (a.callerSignal fn ty).source = "" <;>
        by_cases h4 : (a.namingSignal fn ty).source = "" <;>
          by_cases h5 : (a.godocSignal fn ty).source = "" <;>
            simp [h1, h2, h3, h4, h5, List.filter]

/-- C7: every classification produced by `Classify` lists its signals in
the fixed analyzer order (interface, visibility, caller, naming, godoc)
and contains no zero-valued signal: an analyzer returning a signal with
empty `source` contributes no element.  Signal identity is tracked by
the `(source, weight)` projection, which detail-stripping preserves. -/
theorem classify_signal_order (a : Analyzers) (opts : ClassifyOptions)
    (results : List AnalysisResult) :
    ∀ r' ∈ Classify a results opts, ∀ se' ∈ r'.sideEffects, ∀ c,
      se'.classification = some c →
      ((c.signals.map fun s => (s.source, s.weight)) =
        (([a.interfaceSignal r'.target.function se'.type,
           a.visibilitySignal r'.target.function se'.type,
           a.callerSignal r'.target.function se'.type,
           a.namingSignal r'.target.function se'.type,
           a.godocSignal r'.target.function se'.type].filter
             fun s => s.source ≠ "").map fun s => (s.source, s.weight))
       ∧ ∀ s ∈ c.signals, s.source ≠ "") := by
  intro r' hr' se' hse' c hc
  unfold Classify at hr'
  simp only [List.mem_map] at hr'
  obtain ⟨r, _, rfl⟩ := hr'
  simp only [List.mem_map] at hse'
  obtain ⟨se, _, rfl⟩ := hse'
  cases hv : opts.verbose
  · simp only [classifyOneEffect, hv, Bool.false_eq_true, if_false] at hc
    injection hc with hX
    subst hX
    constructor
    · show (((classifySideEffect a r.target.function se.type).map
          stripSignalDetail).map fun s => (s.source, s.weight)) = _
      rw [List.map_map, classifySideEffect_eq_filter]
      rfl
    · intro s hs
      have hs' : s ∈ (classifySideEffect a r.target.function se.type).map
          stripSignalDetail := hs
      simp only [List.mem_map] at hs'
      obtain ⟨s₀, hs₀, rfl⟩ := hs'
      rw [classifySideEffect_eq_filter] at hs₀
      have hp := (List.mem_filter.mp hs₀).2
      simpa [stripSignalDetail] using of_decide_eq_true hp
  · simp only [classifyOneEffect, hv, if_true] at hc
    injection hc with hX
    subst hX
    constructor
    · show ((classifySideEffect a r.target.function se.type).map
          fun s => (s.source, s.weight)) = _
      rw [classifySideEffect_eq_filter]
      rfl
    · intro s hs
      have hs' : s ∈ classifySideEffect a r.target.function se.type := hs
      rw [classifySideEffect_eq_filter] at hs'
      exact of_decide_eq_true (List.mem_filter.mp hs').2

/-- C7 witness: at a concrete input in which the visibility and naming
analyzers return the zero-valued signal, the classification's signals
are the interface, caller and godoc signals, in that order. -/
theorem classify_signal_order_witness :
    ((Classification.mk ClassificationLabel.ambiguous 55
        [Signal.mk "interface" 30 "" "" "", Signal.mk "caller" 5 "" "" "",
         Signal.mk "godoc" (-10) "" "" ""] "").signals.map
      fun s => (s.source, s.weight)) =
      [("interface", 30), ("caller", 5), ("godoc", -10)] := by
  have h2 := classify_signal_order
    (Analyzers.mk
      (fun _ _ => Signal.mk "interface" 30 "" "" "")
      (fun _ _ => Signal.zero)
      (fun _ _ => Signal.mk "caller" 5 "" "" "")
      (fun _ _ => Signal.zero)
      (fun _ _ => Signal.mk "godoc" (-10) "" "" ""))
    (ClassifyOptions.mk none true)
    [AnalysisResult.mk
      (FunctionTarget.mk "example.com/p" "F" "" "func()" "p.go:1:1")
      [SideEffect.mk "se-11111111" "ReturnValue" "P0" "p.go:2:2"
        "returns int" "int" none]
      (Metadata.mk "dev" "go1" 0 [])]
    (AnalysisResult.mk
      (FunctionTarget.mk "example.com/p" "F" "" "func()" "p.go:1:1")
      [SideEffect.mk "se-11111111" "ReturnValue" "P0" "p.go:2:2"
        "returns int" "int"
        (some (Classification.mk ClassificationLabel.ambiguous 55
          [Signal.mk "interface" 30 "" "" "", Signal.mk "caller" 5 "" "" "",
           Signal.mk "godoc" (-10) "" "" ""] ""))]
      (Metadata.mk "dev" "go1" 0 []))
    (by decide)
    (SideEffect.mk "se-11111111" "ReturnValue" "P0" "p.go:2:2"
      "returns int" "int"
      (some (Classification.mk ClassificationLabel.ambiguous 55
        [Signal.mk "interface" 30 "" "" "", Signal.mk "caller" 5 "" "" "",
         Signal.mk "godoc" (-10) "" "" ""] "")))
    (by decide)
    (Classification.mk ClassificationLabel.ambiguous 55
      [Signal.mk "interface" 30 "" "" "", Signal.mk "caller" 5 "" "" "",
       Signal.mk "godoc" (-10) "" "" ""] "")
    rfl
  rw [h2.1]
  decide

/-! ## Encoding helpers (lowercase hex, Go %q quoting) -/

/-- The lowercase hexadecimal digit for a value below 16. -/
def hexDigitChar (n : Nat) : Char :=
  if n < 10 then Char.ofNat (48 + n) else Char.ofNat (87 + n)

/-- The two lowercase hex characters of one byte (Go `%x` on a byte). -/
def hexByteChars (b : Nat) : List Char :=
  [hexDigitChar (b / 16 % 16), hexDigitChar (b % 16)]

/-- Model of Go's `%q` / `strconv.Quote` on one character, as used by the
error messages of the loader, the config loader and the analyze command:
`"` and `\` are backslash-escaped and printable ASCII is kept verbatim.
Go escapes non-printable and non-ASCII characters with backslash forms
whose exact digits no theorem here depends on; they are rendered in a
simplified `\u`-hex form. -/
def goQuoteChar (c : Char) : List Char :=
  if c = '"' then ['\\', '"']
  else if c = '\\' then ['\\', '\\']
  else if 0x20 ≤ c.toNat ∧ c.toNat < 0x7f then [c]
  else '\\' :: 'u' :: (hexByteChars (c.toNat / 256 % 256) ++
    hexByteChars (c.toNat % 256))

/-- Model of Go's `%q` string verb: quote and escape. -/
def goQuote (s : String) : String :=
  String.mk ('"' :: s.data.flatMap goQuoteChar ++ ['"'])

/-! ## Caller dependency signal (`internal/classify`, part_001) -/

/-- A `*packages.Package` as the caller analysis sees it: the identity of
its `Types` pointer, whether `TypesInfo` is non-nil, and the identities
of the objects its `TypesInfo.Uses` map refers to. -/
structure GoPackage where
  typesId : Nat
  hasTypesInfo : Bool
  uses : List Nat
deriving DecidableEq, Repr

/-- A function's `types.Object`: its own identity and the identity of its
defining package (`funcObj.Pkg()`). -/
structure FuncObj where
  objId : Nat
  pkgId : Nat
deriving DecidableEq, Repr

/-- classify.countCallers: the number of packages (other than the one
defining the function, and with type information present) whose `Uses`
map refers to the function object; the Go loop `break`s after the first
hit, so each package counts at most once. -/
def countCallers (funcObj : FuncObj) (pkgs : List GoPackage) : Nat :=
  match pkgs with
  | [] => 0
  | pkg :: rest =>
    if pkg.hasTypesInfo = false then countCallers funcObj rest
    else if pkg.typesId = funcObj.pkgId then countCallers funcObj rest
    else if funcObj.objId ∈ pkg.uses then countCallers funcObj rest + 1
    else countCallers funcObj rest

/-- classify.maxCallerWeight. -/
def maxCallerWeight : Int := 15

/-- classify.AnalyzeCallerSignal: the zero signal for a nil function
object or zero callers; otherwise source "caller" with weight 5 / 10 /
15 for 1 / 2-3 / 4-or-more callers (the Go code initializes the weight
to 5 and overwrites it in the ≥4 and ≥2 branches, which is the same
if-chain). -/
def AnalyzeCallerSignal (funcObj : Option FuncObj) (effectType : String)
    (modulePkgs : List GoPackage) : Signal :=
  match funcObj with
  | none => Signal.zero
  | some fo =>
    let callerCount := countCallers fo modulePkgs
    if callerCount = 0 then Signal.zero
    else
      let weight : Int :=
        if callerCount ≥ 4 then maxCallerWeight
        else if callerCount ≥ 2 then 10
        else 5
      { source := "caller", weight := weight, sourceFile := "", excerpt := "",
        reasoning := toString callerCount ++ " caller(s) reference this function" }

/-- The caller count is the number of list entries that are other
packages, have type information, and whose `Uses` contains the exact
function object. -/
theorem countCallers_eq_filter (fo : FuncObj) (pkgs : List GoPackage) :
    countCallers fo pkgs =
      (pkgs.filter fun p =>
        p.hasTypesInfo ∧ p.typesId ≠ fo.pkgId ∧ fo.objId ∈ p.uses).length := by
  induction pkgs with
  | nil => rfl
  | cons p rest ih =>
      unfold countCallers
      by_cases h1 : p.hasTypesInfo = false
      · have h1' : ¬ (p.hasTypesInfo = true) := by simp [h1]
        simp [h1, List.filter, h1', ih]
      · have h1' : p.hasTypesInfo = true := by
          cases hb : p.hasTypesInfo
          · exact absurd hb h1
          · rfl
        by_cases h2 : p.typesId = fo.pkgId
        · simp [h1, h1', h2, List.filter, ih]
        · by_cases h3 : fo.objId ∈ p.uses
          · simp [h1, h1', h2, h3, List.filter, ih]
          · simp [h1, h1', h2, h3, List.filter, ih]

/-- C4: `AnalyzeCallerSignal` returns the zero-valued signal when the
function object is nil or no other package references it; otherwise a
signal with source "caller" and weight exactly 5 for one referencing
package, 10 for two or three, and 15 (the cap) for four or more, the
count being over the packages, other than the function's own, whose
`Uses` index contains that exact object. -/
theorem analyzeCallerSignal_spec (effectType : String)
    (pkgs : List GoPackage) (fo : FuncObj) :
    AnalyzeCallerSignal none effectType pkgs = Signal.zero
    ∧ (countCallers fo pkgs = 0 →
        AnalyzeCallerSignal (some fo) effectType pkgs = Signal.zero)
    ∧ (countCallers fo pkgs = 1 →
        (AnalyzeCallerSignal (some fo) effectType pkgs).source = "caller"
        ∧ (AnalyzeCallerSignal (some fo) effectType pkgs).weight = 5)
    ∧ (2 ≤ countCallers fo pkgs → countCallers fo pkgs ≤ 3 →
        (AnalyzeCallerSignal (some fo) effectType pkgs).source = "caller"
        ∧ (AnalyzeCallerSignal (some fo) effectType pkgs).weight = 10)
    ∧ (4 ≤ countCallers fo pkgs →
        (AnalyzeCallerSignal (some fo) effectType pkgs).source = "caller"
        ∧ (AnalyzeCallerSignal (some fo) effectType pkgs).weight = 15)
    ∧ countCallers fo pkgs =
        (pkgs.filter fun p =>
          p.hasTypesInfo ∧ p.typesId ≠ fo.pkgId ∧ fo.objId ∈ p.uses).length := by
  refine ⟨rfl, ?_, ?_, ?_, ?_, countCallers_eq_filter fo pkgs⟩
  · intro h
    simp [AnalyzeCallerSignal, h]
  · intro h
    simp [AnalyzeCallerSignal, h, maxCallerWeight]
  · intro h2 h3
    have h0 : ¬ countCallers fo pkgs = 0 := by omega
    have h4 : ¬ countCallers fo pkgs ≥ 4 := by omega
    simp [AnalyzeCallerSignal, h0, h4, h2, maxCallerWeight]
  · intro h4
    have h0 : ¬ countCallers fo pkgs = 0 := by omega
    simp [AnalyzeCallerSignal, h0, h4, maxCallerWeight]

/-- C4 witness: with one other package whose `Uses` contains the
function object, the signal has source "caller" and weight 5; a nil
function object yields the zero signal. -/
theorem analyzeCallerSignal_spec_witness :
    (AnalyzeCallerSignal (some (FuncObj.mk 7 0)) "ReturnValue"
        [GoPackage.mk 1 true [7]]).source = "caller"
    ∧ (AnalyzeCallerSignal (some (FuncObj.mk 7 0)) "ReturnValue"
        [GoPackage.mk 1 true [7]]).weight = 5 :=
  (analyzeCallerSignal_spec "ReturnValue" [GoPackage.mk 1 true [7]]
    (FuncObj.mk 7 0)).2.2.1 (by decide)

/-! ## Package loader (`internal/loader`, part_003) -/

namespace Loader

/-- A loaded `*packages.Package` as `loader.Load` inspects it: an
identity, its `Errors` list (as message strings) and the identity of its
`Fset`. -/
structure Package where
  pkgId : Nat
  errors : List String
  fsetId : Nat
deriving DecidableEq, Repr

/-- loader.Result: the loaded package and the shared file set. -/
structure Result where
  pkg : Package
  fset : Nat
deriving DecidableEq, Repr

/-- loader.Load: wraps `packages.Load` (taken as the explicit
`packagesLoad` outcome).  A load failure propagates; an empty match is
an error; the FIRST package's error list is inspected and, when empty,
that package becomes the result. -/
def Load (pattern : String) (packagesLoad : Except String (List Package)) :
    Except String Result :=
  match packagesLoad with
  | .error err =>
      .error ("loading package " ++ goQuote pattern ++ ": " ++ err)
  | .ok pkgs =>
    match pkgs with
    | [] => .error ("no packages found for pattern " ++ goQuote pattern)
    | pkg :: _ =>
      if pkg.errors ≠ [] then
        .error ("package " ++ goQuote pattern ++ " has errors:\n  " ++
          String.intercalate "\n  " pkg.errors)
      else .ok { pkg := pkg, fset := pkg.fsetId }

end Loader

/-- C10: `loader.Load` considers only the first matched package — it
errors exactly when the underlying load fails, no package matches, or
the first package carries errors; on success the result's `Pkg` is the
first package; and the remaining matched packages (errors included) are
ignored entirely. -/
theorem loader_load_spec (pattern : String) :
    (∀ e, ∃ m, Loader.Load pattern (.error e) = .error m)
    ∧ (∃ m, Loader.Load pattern (.ok []) = .error m)
    ∧ (∀ p rest, p.errors ≠ [] →
        ∃ m, Loader.Load pattern (.ok (p :: rest)) = .error m)
    ∧ (∀ p rest, p.errors = [] →
        Loader.Load pattern (.ok (p :: rest)) =
          .ok (Loader.Result.mk p p.fsetId))
    ∧ (∀ p rest rest', Loader.Load pattern (.ok (p :: rest)) =
        Loader.Load pattern (.ok (p :: rest'))) := by
  refine ⟨?_, ?_, ?_, ?_, ?_⟩
  · intro e
    exact ⟨_, rfl⟩
  · exact ⟨_, rfl⟩
  · intro p rest h
    have hload : Loader.Load pattern (.ok (p :: rest)) =
        .error ("package " ++ goQuote pattern ++ " has errors:\n  " ++
          String.intercalate "\n  " p.errors) := by
      simp only [Loader.Load, if_pos h]
    exact ⟨_, hload⟩
  · intro p rest h
    simp only [Loader.Load, h]
    simp
  · intro p rest rest'
    rfl

/-- C10 witness: a first package with an error produces a load error, and
a clean first package is returned as the result even when a later matched
package carries errors. -/
theorem loader_load_spec_witness :
    (Loader.Load "./x" (.ok [Loader.Package.mk 0 ["boom"] 3])).isOk = false
    ∧ Loader.Load "./x"
        (.ok [Loader.Package.mk 1 [] 4, Loader.Package.mk 0 ["boom"] 3]) =
      .ok (Loader.Result.mk (Loader.Package.mk 1 [] 4) 4) := by
  constructor
  · obtain ⟨m, hm⟩ := (loader_load_spec "./x").2.2.1
      (Loader.Package.mk 0 ["boom"] 3) [] (by decide)
    rw [hm]
    rfl
  · exact (loader_load_spec "./x").2.2.2.1 (Loader.Package.mk 1 [] 4)
      [Loader.Package.mk 0 ["boom"] 3] rfl

/-! ## The analyze command (`cmd/gaze/main.go`, part_006) -/

/-- What the analyze command does besides returning an error: write a
JSON report, write a text report, or print a notice to stderr. -/
inductive CmdOutput where
  | jsonReport (results : List AnalysisResult)
  | textReport (results : List AnalysisResult)
  | notice (msg : String)
deriving DecidableEq, Repr

/-- The error built by the analyze command when an explicit `--function`
filter matches nothing: `fmt.Errorf("function %q not found in package
%q", function, pkgPath)`. -/
def functionNotFoundErr (function pkgPath : String) : String :=
  "function " ++ goQuote function ++ " not found in package " ++
    goQuote pkgPath

/-- The `RunE` body of `newAnalyzeCmd`: validate the format flag, run
`analysis.LoadAndAnalyze` (taken as its explicit outcome), and on zero
results either fail with the not-found error (when a `--function` filter
was given) or print a notice and succeed. -/
def analyzeRunE (pkgPath function format : String)
    (loadAndAnalyze : Except String (List AnalysisResult)) :
    Except String CmdOutput :=
  if format ≠ "text" ∧ format ≠ "json" then
    .error ("invalid format " ++ goQuote format)
  else
    match loadAndAnalyze with
    | .error e => .error e
    | .ok results =>
      if results.isEmpty then
        if function ≠ "" then
          .error (functionNotFoundErr function pkgPath)
        else .ok (.notice "no functions found to analyze")
      else if format = "json" then .ok (.jsonReport results)
      else .ok (.textReport results)

/-- The process exit status of `main`: `root.Execute()` surfaces the
`RunE` error and `main` calls `os.Exit(1)` on it, else exits normally. -/
def exitCode {α : Type} (r : Except String α) : Nat :=
  match r with
  | .error _ => 1
  | .ok _ => 0

/-- A string whose characters `%q` leaves verbatim: printable ASCII with
no quote and no backslash. -/
def quoteSafe (s : String) : Prop :=
  ∀ c ∈ s.data, 0x20 ≤ c.toNat ∧ c.toNat < 0x7f ∧ c ≠ '"' ∧ c ≠ '\\'

instance quoteSafeDecidable (s : String) : Decidable (quoteSafe s) :=
  List.decidableBAll _ s.data

/-- Quote-safe characters pass through `goQuoteChar` unchanged. -/
theorem flatMap_goQuoteChar_eq (l : List Char)
    (h : ∀ c ∈ l, 0x20 ≤ c.toNat ∧ c.toNat < 0x7f ∧ c ≠ '"' ∧ c ≠ '\\') :
    l.flatMap goQuoteChar = l := by
  induction l with
  | nil => rfl
  | cons c cs ih =>
      obtain ⟨h1, h2, h3, h4⟩ := h c (by simp)
      rw [List.flatMap_cons, ih fun x hx => h x (by simp [hx])]
      simp [goQuoteChar, h3, h4, h1, h2]

/-- On a quote-safe string, `%q` is plain double-quote wrapping. -/
theorem goQuote_of_quoteSafe (s : String) (h : quoteSafe s) :
    goQuote s = String.mk ('"' :: s.data ++ ['"']) := by
  unfold goQuote
  rw [flatMap_goQuoteChar_eq s.data h]

/-- Concatenation of strings concatenates their character lists. -/
theorem string_data_append (s t : String) : (s ++ t).data = s.data ++ t.data := by
  cases s
  cases t
  rfl

/-- C8 counterexample: with the function filter `a"b` (a name holding a
double quote) and zero results, the command errors, but the error
message does NOT contain the literal function name — `%q` escapes the
quote, so the message shows `a\"b`. -/
theorem analyze_filter_miss_counterexample :
    analyzeRunE "p" "a\"b" "text" (.ok []) =
      .error (functionNotFoundErr "a\"b" "p")
    ∧ ¬ (("a\"b").data <:+: (functionNotFoundErr "a\"b" "p").data) := by
  constructor
  · rfl
  · decide

/-- C8 (amended): with a `--function` filter and zero results the analyze
command returns the not-found error, whose message contains the
`%q`-quoted function name and package argument — hence the literal
strings themselves whenever they contain no character that `%q` escapes —
and the process exit status is nonzero; without a filter, zero results is
a notice and the exit status is zero. -/
theorem analyze_zero_results_spec (pkgPath function format : String)
    (hfmt : format = "text" ∨ format = "json") :
    (function ≠ "" →
      analyzeRunE pkgPath function format (.ok []) =
        .error (functionNotFoundErr function pkgPath)
      ∧ ((goQuote function).data <:+: (functionNotFoundErr function pkgPath).data)
      ∧ ((goQuote pkgPath).data <:+: (functionNotFoundErr function pkgPath).data)
      ∧ (quoteSafe function →
          function.data <:+: (functionNotFoundErr function pkgPath).data)
      ∧ (quoteSafe pkgPath →
          pkgPath.data <:+: (functionNotFoundErr function pkgPath).data)
      ∧ exitCode (analyzeRunE pkgPath function format (.ok [])) = 1)
    ∧ (analyzeRunE pkgPath "" format (.ok []) =
        .ok (.notice "no functions found to analyze")
      ∧ exitCode (analyzeRunE pkgPath "" format (.ok [])) = 0) := by
  have hfc : ¬ (format ≠ "text" ∧ format ≠ "json") := by
    rcases hfmt with h | h <;> simp [h]
  have hdata : (functionNotFoundErr function pkgPath).data =
      ("function ".data ++ (goQuote function).data ++
        " not found in package ".data) ++ (goQuote pkgPath).data := by
    simp [functionNotFoundErr, string_data_append, List.append_assoc]
  constructor
  · intro hfn
    have hrun : analyzeRunE pkgPath function format (.ok []) =
        .error (functionNotFoundErr function pkgPath) := by
      unfold analyzeRunE
      rw [if_neg hfc]
      simp [hfn]
    refine ⟨hrun, ?_, ?_, ?_, ?_, by rw [hrun]; rfl⟩
    · refine ⟨"function ".data, " not found in package ".data ++
        (goQuote pkgPath).data, ?_⟩
      simp [hdata, List.append_assoc]
    · refine ⟨"function ".data ++ (goQuote function).data ++
        " not found in package ".data, [], ?_⟩
      simp [hdata, List.append_assoc]
    · intro hsafe
      rw [goQuote_of_quoteSafe function hsafe] at hdata
      refine ⟨"function ".data ++ ['"'],
        ['"'] ++ " not found in package ".data ++ (goQuote pkgPath).data, ?_⟩
      simp [hdata, List.append_assoc]
    · intro hsafe
      rw [goQuote_of_quoteSafe pkgPath hsafe] at hdata
      refine ⟨"function ".data ++ (goQuote function).data ++
        " not found in package ".data ++ ['"'], ['"'], ?_⟩
      simp [hdata, List.append_assoc]
  · have hrun : analyzeRunE pkgPath "" format (.ok []) =
        .ok (.notice "no functions found to analyze") := by
      unfold analyzeRunE
      rw [if_neg hfc]
      simp
    exact ⟨hrun, by rw [hrun]; rfl⟩

/-- C8 witness: the amended claim at the concrete filter `Foo`, package
`pkg` and format `text` — the error message contains the literal quote-
safe names, the filtered miss exits nonzero, and the unfiltered empty
run exits zero with a notice. -/
theorem analyze_zero_results_spec_witness :
    analyzeRunE "pkg" "Foo" "text" (.ok []) =
      .error (functionNotFoundErr "Foo" "pkg")
    ∧ ("Foo".data <:+: (functionNotFoundErr "Foo" "pkg").data)
    ∧ ("pkg".data <:+: (functionNotFoundErr "Foo" "pkg").data)
    ∧ exitCode (analyzeRunE "pkg" "Foo" "text" (.ok [])) = 1
    ∧ analyzeRunE "pkg" "" "text" (.ok []) =
        .ok (.notice "no functions found to analyze")
    ∧ exitCode (analyzeRunE "pkg" "" "text" (.ok [])) = 0 := by
  have h := analyze_zero_results_spec "pkg" "Foo" "text" (Or.inl rfl)
  have h1 := h.1 (by decide)
  exact ⟨h1.1, h1.2.2.2.1 (by decide), h1.2.2.2.2.1 (by decide),
    h1.2.2.2.2.2, h.2.1, h.2.2⟩

/-! ## Configuration loading (`internal/config/config.go`) -/

namespace Config

/-- The effect of `yaml.Unmarshal` of one document on a pre-populated
`GazeConfig`: which fields the document sets.  yaml.v3 leaves fields
absent from the document untouched, which is exactly what unmarshalling
into a defaults-filled struct relies on; the `yaml:"-"` tag keeps the
parsed `timeout` duration out of the document. -/
structure YamlDoc where
  contractual : Option Int
  incidental : Option Int
  exclude : Option (List String)
  includeGlobs : Option (List String)
  timeoutStr : Option String
deriving DecidableEq, Repr

/-- Unmarshal a parsed document into a configuration: set the fields the
document holds, keep the rest. -/
def applyYaml (d : YamlDoc) (c : GazeConfig) : GazeConfig :=
  { classification :=
    { thresholds :=
      { contractual := d.contractual.getD c.classification.thresholds.contractual
        incidental := d.incidental.getD c.classification.thresholds.incidental }
      docScan :=
      { exclude := d.exclude.getD c.classification.docScan.exclude
        includeGlobs := d.includeGlobs.getD c.classification.docScan.includeGlobs
        timeout := c.classification.docScan.timeout
        timeoutStr := d.timeoutStr.getD c.classification.docScan.timeoutStr } } }

/-- The outcome of `os.ReadFile` on the configuration path. -/
inductive ReadResult where
  | notExist
  | readFailure (msg : String)
  | contents (data : String)
deriving DecidableEq, Repr

/-- The assignment `cfg.Classification.DocScan.Timeout = d`. -/
def setTimeout (c : GazeConfig) (dur : Int) : GazeConfig :=
  let ds := c.classification.docScan
  { classification :=
    { c.classification with docScan := { ds with timeout := dur } } }

/-- config.Load: a missing file yields the defaults with no error; a
read failure or a failed unmarshal is an error; otherwise the document is
unmarshalled into a pre-populated `DefaultConfig`, and a nonempty
`doc_scan.timeout` string is parsed (`time.ParseDuration` taken as the
explicit `parseDuration` argument), a parse failure being an error. -/
def Load (read : ReadResult) (unmarshal : String → Except String YamlDoc)
    (parseDuration : String → Option Int) : Except String GazeConfig :=
  match read with
  | .notExist => .ok DefaultConfig
  | .readFailure msg => .error ("reading config: " ++ msg)
  | .contents data =>
    match unmarshal data with
    | .error e => .error ("parsing config: " ++ e)
    | .ok d =>
      let cfg := applyYaml d DefaultConfig
      if cfg.classification.docScan.timeoutStr ≠ "" then
        match parseDuration cfg.classification.docScan.timeoutStr with
        | none => .error ("parsing doc_scan.timeout " ++
            goQuote cfg.classification.docScan.timeoutStr)
        | some dur => .ok (setTimeout cfg dur)
      else .ok cfg

end Config

/-- C6: `config.Load` returns the documented defaults (80/50, 30s, the
nine-entry exclude list) with no error when the file does not exist;
errors when the file exists but fails to unmarshal or its
`doc_scan.timeout` string fails to parse as a duration; and unmarshals a
valid file into a pre-populated default configuration, so every field
absent from the file — including an entirely empty file — keeps its
default value. -/
theorem config_load_spec (u : String → Except String Config.YamlDoc)
    (p : String → Option Int) :
    (Config.Load .notExist u p = .ok Config.DefaultConfig
      ∧ Config.DefaultConfig.classification.thresholds.contractual = 80
      ∧ Config.DefaultConfig.classification.thresholds.incidental = 50
      ∧ Config.DefaultConfig.classification.docScan.timeout = 30000000000
      ∧ Config.DefaultConfig.classification.docScan.exclude =
          ["vendor/**", "node_modules/**", ".git/**", "testdata/**",
           "CHANGELOG.md", "CONTRIBUTING.md", "CODE_OF_CONDUCT.md",
           "LICENSE", "LICENSE.md"])
    ∧ (∀ data e, u data = .error e →
        ∃ m, Config.Load (.contents data) u p = .error m)
    ∧ (∀ data d, u data = .ok d →
        (Config.applyYaml d Config.DefaultConfig).classification.docScan.timeoutStr ≠ "" →
        p (Config.applyYaml d Config.DefaultConfig).classification.docScan.timeoutStr = none →
        ∃ m, Config.Load (.contents data) u p = .error m)
    ∧ (∀ data, u data = .ok (Config.YamlDoc.mk none none none none none) →
        p "30s" = some 30000000000 →
        Config.Load (.contents data) u p = .ok Config.DefaultConfig)
    ∧ (∀ data d cfg, u data = .ok d →
        Config.Load (.contents data) u p = .ok cfg →
        (d.contractual = none → cfg.classification.thresholds.contractual = 80)
        ∧ (d.incidental = none → cfg.classification.thresholds.incidental = 50)
        ∧ (d.exclude = none → cfg.classification.docScan.exclude =
            Config.DefaultConfig.classification.docScan.exclude)
        ∧ (d.includeGlobs = none →
            cfg.classification.docScan.includeGlobs = [])) := by
  refine ⟨⟨rfl, rfl, rfl, rfl, rfl⟩, ?_, ?_, ?_, ?_⟩
  · intro data e hu
    have hload : Config.Load (.contents data) u p =
        .error ("parsing config: " ++ e) := by
      simp [Config.Load, hu]
    exact ⟨_, hload⟩
  · intro data d hu hne hp
    have hload : Config.Load (.contents data) u p =
        .error ("parsing doc_scan.timeout " ++ goQuote
          (Config.applyYaml d Config.DefaultConfig).classification.docScan.timeoutStr) := by
      simp only [Config.Load, hu]
      rw [if_pos hne, hp]
    exact ⟨_, hload⟩
  · intro data hu hp
    simp only [Config.Load, hu]
    rw [if_pos (by decide :
      (Config.applyYaml (Config.YamlDoc.mk none none none none none)
        Config.DefaultConfig).classification.docScan.timeoutStr ≠ "")]
    have hts : (Config.applyYaml (Config.YamlDoc.mk none none none none none)
        Config.DefaultConfig).classification.docScan.timeoutStr = "30s" := rfl
    rw [hts, hp]
    rfl
  · intro data d cfg hu hload
    simp only [Config.Load, hu] at hload
    by_cases hts : (Config.applyYaml d Config.DefaultConfig).classification.docScan.timeoutStr ≠ ""
    · rw [if_pos hts] at hload
      cases hp : p (Config.applyYaml d Config.DefaultConfig).classification.docScan.timeoutStr with
      | none =>
          rw [hp] at hload
          exact absurd hload (by simp)
      | some dur =>
          rw [hp] at hload
          injection hload with hcfg
          subst hcfg
          refine ⟨?_, ?_, ?_, ?_⟩ <;> intro h <;>
            simp [Config.setTimeout, Config.applyYaml, h, Config.DefaultConfig]
    · rw [if_neg hts] at hload
      injection hload with hcfg
      subst hcfg
      refine ⟨?_, ?_, ?_, ?_⟩ <;> intro h <;>
        simp [Config.applyYaml, h, Config.DefaultConfig]

/-- C6 witness: with an unmarshaller that parses every file as the empty
document and the real 30s duration value, loading an existing (empty)
file returns exactly the defaults, and a missing file does too. -/
theorem config_load_spec_witness :
    Config.Load (.contents "")
      (fun _ => .ok (Config.YamlDoc.mk none none none none none))
      (fun s => if s = "30s" then some 30000000000 else none) =
      .ok Config.DefaultConfig
    ∧ Config.Load .notExist
        (fun _ => .ok (Config.YamlDoc.mk none none none none none))
        (fun s => if s = "30s" then some 30000000000 else none) =
      .ok Config.DefaultConfig := by
  have h := config_load_spec
    (fun _ => .ok (Config.YamlDoc.mk none none none none none))
    (fun s => if s = "30s" then some 30000000000 else none)
  exact ⟨h.2.2.2.1 "" rfl (by decide), h.1.1⟩

/-! ## Stable ID generation (`internal/taxonomy`, part_005)

`GenerateID` hashes `pkg:function:type:location` with SHA-256 and keeps
the first four bytes as eight lowercase hex characters.  SHA-256 (FIPS
180-4) is implemented here executably over byte lists, with 32-bit words
as `Nat` reduced modulo `2^32`. -/

/-- Reduce to a 32-bit word. -/
def w32 (n : Nat) : Nat := n % 4294967296

/-- 32-bit right rotation (input below `2^32`). -/
def rotr (n x : Nat) : Nat := w32 ((x >>> n) ||| (x <<< (32 - n)))

/-- SHA-256 big sigma 0. -/
def bsig0 (x : Nat) : Nat := (rotr 2 x) ^^^ (rotr 13 x) ^^^ (rotr 22 x)

/-- SHA-256 big sigma 1. -/
def bsig1 (x : Nat) : Nat := (rotr 6 x) ^^^ (rotr 11 x) ^^^ (rotr 25 x)

/-- SHA-256 small sigma 0. -/
def ssig0 (x : Nat) : Nat := (rotr 7 x) ^^^ (rotr 18 x) ^^^ (x >>> 3)

/-- SHA-256 small sigma 1. -/
def ssig1 (x : Nat) : Nat := (rotr 17 x) ^^^ (rotr 19 x) ^^^ (x >>> 10)

/-- SHA-256 choice function (32-bit complement as xor with the mask). -/
def chF (x y z : Nat) : Nat := (x &&& y) ^^^ ((x ^^^ 4294967295) &&& z)

/-- SHA-256 majority function. -/
def majF (x y z : Nat) : Nat := (x &&& y) ^^^ (x &&& z) ^^^ (y &&& z)

/-- The sixty-four SHA-256 round constants (FIPS 180-4, section 4.2.2,
written in decimal). -/
def sha256K : List Nat :=
  [1116352408, 1899447441, 3049323471, 3921009573,
   961987163, 1508970993, 2453635748, 2870763221,
   3624381080, 310598401, 607225278, 1426881987,
   1925078388, 2162078206, 2614888103, 3248222580,
   3835390401, 4022224774, 264347078, 604807628,
   770255983, 1249150122, 1555081692, 1996064986,
   2554220882, 2821834349, 2952996808, 3210313671,
   3336571891, 3584528711, 113926993, 338241895,
   666307205, 773529912, 1294757372, 1396182291,
   1695183700, 1986661051, 2177026350, 2456956037,
   2730485921, 2820302411, 3259730800, 3345764771,
   3516065817, 3600352804, 4094571909, 275423344,
   430227734, 506948616, 659060556, 883997877,
   958139571, 1322822218, 1537002063, 1747873779,
   1955562222, 2024104815, 2227730452, 2361852424,
   2428436474, 2756734187, 3204031479, 3329325298]

/-- The eight-word SHA-256 working state. -/
structure Hash8 where
  a : Nat
  b : Nat
  c : Nat
  d : Nat
  e : Nat
  f : Nat
  g : Nat
  h : Nat
deriving DecidableEq, Repr

/-- The SHA-256 initial hash value (FIPS 180-4, section 5.3.3, written
in decimal). -/
def sha256Init : Hash8 :=
  ⟨1779033703, 3144134277, 1013904242, 2773480762,
   1359893119, 2600822924, 528734635, 1541459225⟩

/-- One SHA-256 compression round; `kw` is the round constant plus the
schedule word. -/
def sha256Round (st : Hash8) (kw : Nat) : Hash8 :=
  let t1 := w32 (st.h + bsig1 st.e + chF st.e st.f st.g + kw)
  let t2 := w32 (bsig0 st.a + majF st.a st.b st.c)
  ⟨w32 (t1 + t2), st.a, st.b, st.c, w32 (st.d + t1), st.e, st.f, st.g⟩

/-- The sixteen big-endian 32-bit words of a 64-byte block. -/
def words16 : List Nat → List Nat
  | b0 :: b1 :: b2 :: b3 :: rest =>
      ((b0 <<< 24) ||| (b1 <<< 16) ||| (b2 <<< 8) ||| b3) :: words16 rest
  | _ => []

/-- Append the next message-schedule word. -/
def extendOnce (w : List Nat) : List Nat :=
  let n := w.length
  w ++ [w32 (ssig1 (w.getD (n - 2) 0) + w.getD (n - 7) 0 +
    ssig0 (w.getD (n - 15) 0) + w.getD (n - 16) 0)]

/-- Iterate the message-schedule extension. -/
def extendW : Nat → List Nat → List Nat
  | 0, w => w
  | k + 1, w => extendW k (extendOnce w)

/-- Compress one 64-byte block into the state. -/
def compressBlock (st : Hash8) (block : List Nat) : Hash8 :=
  let w := extendW 48 (words16 block)
  let kw := List.zipWith (fun k x => k + x) sha256K w
  let t := kw.foldl sha256Round st
  ⟨w32 (st.a + t.a), w32 (st.b + t.b), w32 (st.c + t.c), w32 (st.d + t.d),
   w32 (st.e + t.e), w32 (st.f + t.f), w32 (st.g + t.g), w32 (st.h + t.h)⟩

/-- SHA-256 padding: `0x80`, zeros to 56 mod 64, then the bit length as
eight big-endian bytes. -/
def padMessage (msg : List Nat) : List Nat :=
  let bitLen := 8 * msg.length
  let zeros := List.replicate ((120 - (msg.length + 1) % 64) % 64) 0
  msg ++ [0x80] ++ zeros ++
    [(bitLen >>> 56) % 256, (bitLen >>> 48) % 256, (bitLen >>> 40) % 256,
     (bitLen >>> 32) % 256, (bitLen >>> 24) % 256, (bitLen >>> 16) % 256,
     (bitLen >>> 8) % 256, bitLen % 256]

/-- Split a byte list into 64-byte chunks, with structural fuel (one
unit per chunk suffices, so the list length is plenty). -/
def chunk64Fuel : Nat → List Nat → List (List Nat)
  | 0, _ => []
  | _, [] => []
  | fuel + 1, l => l.take 64 :: chunk64Fuel fuel (l.drop 64)

/-- Split a byte list into 64-byte chunks. -/
def chunk64 (l : List Nat) : List (List Nat) := chunk64Fuel l.length l

/-- The four big-endian bytes of a 32-bit word. -/
def bytesOfWord (x : Nat) : List Nat :=
  [(x >>> 24) % 256, (x >>> 16) % 256, (x >>> 8) % 256, x % 256]

/-- SHA-256 of a byte list: pad, compress each block, serialize the
final state big-endian. -/
def sha256 (msg : List Nat) : List Nat :=
  let final := (chunk64 (padMessage msg)).foldl compressBlock sha256Init
  bytesOfWord final.a ++ bytesOfWord final.b ++ bytesOfWord final.c ++
    bytesOfWord final.d ++ bytesOfWord final.e ++ bytesOfWord final.f ++
    bytesOfWord final.g ++ bytesOfWord final.h

/-- The UTF-8 bytes of one character (how Go's `[]byte(string)` encodes
each rune). -/
def utf8Char (c : Char) : List Nat :=
  let n := c.toNat
  if n < 0x80 then [n]
  else if n < 0x800 then
    [0xC0 ||| (n >>> 6), 0x80 ||| (n &&& 0x3F)]
  else if n < 0x10000 then
    [0xE0 ||| (n >>> 12), 0x80 ||| ((n >>> 6) &&& 0x3F), 0x80 ||| (n &&& 0x3F)]
  else
    [0xF0 ||| (n >>> 18), 0x80 ||| ((n >>> 12) &&& 0x3F),
     0x80 ||| ((n >>> 6) &&& 0x3F), 0x80 ||| (n &&& 0x3F)]

/-- The UTF-8 bytes of a string. -/
def utf8Bytes (s : String) : List Nat := s.data.flatMap utf8Char

/-- Lowercase hex characters of a byte list (Go `%x`). -/
def hexOfBytes (bs : List Nat) : List Char := bs.flatMap hexByteChars

/-- taxonomy.GenerateID: `"se-"` plus the lowercase hex of the first
four bytes of the SHA-256 of `pkg:function:effectType:location` (Go:
`fmt.Sprintf("se-%x", hash[:4])`). -/
def GenerateID (pkg function effectType location : String) : String :=
  let input := pkg ++ ":" ++ function ++ ":" ++ effectType ++ ":" ++ location
  let hash := sha256 (utf8Bytes input)
  "se-" ++ String.mk (hexOfBytes (hash.take 4))

/-- Hex-encoding the first `k` bytes is the first `2 * k` characters of
the full hex encoding. -/
theorem take_flatMap_hexBytes (l : List Nat) (k : Nat) :
    (l.flatMap hexByteChars).take (2 * k) = (l.take k).flatMap hexByteChars := by
  induction l generalizing k with
  | nil => simp
  | cons b bs ih =>
      cases k with
      | zero => simp
      | succ k' =>
          show (hexDigitChar (b / 16 % 16) :: hexDigitChar (b % 16) ::
            bs.flatMap hexByteChars).take (2 * (k' + 1)) =
            ((b :: bs).take (k' + 1)).flatMap hexByteChars
          have h2 : 2 * (k' + 1) = (2 * k') + 1 + 1 := by ring
          rw [h2, List.take_succ_cons, List.take_succ_cons, ih k',
            List.take_succ_cons, List.flatMap_cons]
          rfl

/-- Hex encoding doubles the length. -/
theorem length_flatMap_hexBytes (l : List Nat) :
    (l.flatMap hexByteChars).length = 2 * l.length := by
  induction l with
  | nil => rfl
  | cons b bs ih =>
      simp [hexByteChars, ih]
      omega

/-- A SHA-256 digest is thirty-two bytes. -/
theorem sha256_length (msg : List Nat) : (sha256 msg).length = 32 := by
  simp [sha256, bytesOfWord]

/-- Every hex digit character is a lowercase hex character. -/
theorem hexDigitChar_range : ∀ n < 16,
    ('0' ≤ hexDigitChar n ∧ hexDigitChar n ≤ '9') ∨
      ('a' ≤ hexDigitChar n ∧ hexDigitChar n ≤ 'f') := by
  decide

/-- C5: `GenerateID` returns `"se-"` followed by exactly the first 8
lowercase hexadecimal characters (the first 4 bytes) of the SHA-256 of
the four inputs joined with `":"`; the id has length 11, starts with
`se-`, its tail is lowercase hex, identical inputs give the identical
id, and on the concrete input from the taxonomy tests the id is the
true SHA-256 prefix `se-3c9ac735`. -/
theorem generateID_spec (pkg function effectType location : String) :
    GenerateID pkg function effectType location =
      "se-" ++ String.mk ((hexOfBytes (sha256 (utf8Bytes
        (pkg ++ ":" ++ function ++ ":" ++ effectType ++ ":" ++ location)))).take 8)
    ∧ (GenerateID pkg function effectType location).length = 11
    ∧ (GenerateID pkg function effectType location).data.take 3 = ['s', 'e', '-']
    ∧ (∀ c ∈ (GenerateID pkg function effectType location).data.drop 3,
        ('0' ≤ c ∧ c ≤ '9') ∨ ('a' ≤ c ∧ c ≤ 'f'))
    ∧ GenerateID pkg function effectType location =
        GenerateID pkg function effectType location
    ∧ GenerateID "pkg/foo" "Save" "ReceiverMutation" "foo.go:10:2" =
        "se-3c9ac735" := by
  have hdata : (GenerateID pkg function effectType location).data =
      ['s', 'e', '-'] ++ ((sha256 (utf8Bytes
        (pkg ++ ":" ++ function ++ ":" ++ effectType ++ ":" ++
          location))).take 4).flatMap hexByteChars := by
    show ("se-" ++ String.mk (hexOfBytes _)).data = _
    rw [string_data_append]
    rfl
  refine ⟨?_, ?_, ?_, ?_, rfl, by decide⟩
  · show "se-" ++ String.mk (hexOfBytes ((sha256 (utf8Bytes _)).take 4)) = _
    have h48 : ((sha256 (utf8Bytes (pkg ++ ":" ++ function ++ ":" ++
        effectType ++ ":" ++ location))).flatMap hexByteChars).take (2 * 4) =
        ((sha256 (utf8Bytes (pkg ++ ":" ++ function ++ ":" ++ effectType ++
          ":" ++ location))).take 4).flatMap hexByteChars :=
      take_flatMap_hexBytes _ 4
    unfold hexOfBytes
    rw [← h48]
  · show (GenerateID pkg function effectType location).data.length = 11
    rw [hdata]
    rw [List.length_append, length_flatMap_hexBytes, List.length_take,
      sha256_length]
    rfl
  · rw [hdata]
    rfl
  · intro c hc
    have hc' : c ∈ ((sha256 (utf8Bytes (pkg ++ ":" ++ function ++ ":" ++
        effectType ++ ":" ++ location))).take 4).flatMap hexByteChars := by
      rw [hdata] at hc
      exact hc
    simp only [List.mem_flatMap] at hc'
    obtain ⟨b, _, hcb⟩ := hc'
    simp only [hexByteChars, List.mem_cons, List.not_mem_nil, or_false] at hcb
    rcases hcb with rfl | rfl
    · exact hexDigitChar_range _ (Nat.mod_lt _ (by norm_num))
    · exact hexDigitChar_range _ (Nat.mod_lt _ (by norm_num))

/-- C5 witness: the id of the concrete taxonomy-test input is the true
SHA-256 prefix and has length 11. -/
theorem generateID_spec_witness :
    GenerateID "pkg/foo" "Save" "ReceiverMutation" "foo.go:10:2" =
      "se-3c9ac735"
    ∧ (GenerateID "pkg/foo" "Save" "ReceiverMutation" "foo.go:10:2").length =
      11 := by
  have h := generateID_spec "pkg/foo" "Save" "ReceiverMutation" "foo.go:10:2"
  exact ⟨h.2.2.2.2.2, h.2.1⟩

/-! ## Effect detection (`internal/analysis`)

The analysis package's source files are not under `src/` — only its
tests are.  The detectors below are therefore modelled from the spec
(sections 4.2 and 4.3), at the granularity the claims need: a function is
its receiver, parameters, result parameters and the roots of the
assignments in its body. -/

/-- What the left-hand side of an assignment roots to: the receiver
variable (recording the outermost field selected after it), a parameter,
or anything else. -/
inductive AssignRoot where
  | receiverField (field : String)
  | paramName (name : String)
  | other
deriving DecidableEq, Repr

/-- One assignment in a function body. -/
structure Assignment where
  root : AssignRoot
  location : String
deriving DecidableEq, Repr

/-- A parameter; `pointerLike` is true for pointer, slice, map, channel
and function types. -/
structure Param where
  name : String
  pointerLike : Bool
deriving DecidableEq, Repr

/-- A method receiver. -/
structure Receiver where
  typeName : String
  isPointer : Bool
deriving DecidableEq, Repr

/-- A result parameter; `name` is empty when unnamed. -/
structure ResultParam where
  name : String
  typeString : String
  isErrorType : Bool
  assignedInDefer : Bool
deriving DecidableEq, Repr

/-- A function under analysis. -/
structure FuncDef where
  name : String
  receiver : Option Receiver
  params : List Param
  results : List ResultParam
  body : List Assignment
  location : String
  signature : String
deriving DecidableEq, Repr

/-- An effect before IDs are assigned: kind, target, location,
description. -/
structure PreEffect where
  kind : String
  target : String
  location : String
  description : String
deriving DecidableEq, Repr

/-- Modelled from the spec: `taxonomy.TierOf` (its source file is not
under `src/`; spec section 3 fixes the P0..P4 partition and the
taxonomy tests pin the P0 set and that unknown kinds map to P4). -/
def TierOf (t : String) : String :=
  if t ∈ ["ReturnValue", "ErrorReturn", "SentinelError",
      "ReceiverMutation", "PointerArgMutation"] then "P0"
  else if t ∈ ["SliceMutation", "MapMutation", "GlobalMutation",
      "WriterOutput", "HTTPResponseWrite", "ChannelSend", "ChannelClose",
      "DeferredReturnMutation"] then "P1"
  else if t ∈ ["FileSystemWrite", "FileSystemDelete", "FileSystemMeta",
      "DatabaseWrite", "DatabaseTransaction", "GoroutineSpawn", "Panic",
      "CallbackInvocation", "LogWrite", "ContextCancellation"] then "P2"
  else if t ∈ ["StdoutWrite", "StderrWrite", "EnvVarMutation", "MutexOp",
      "WaitGroupOp", "AtomicOp", "TimeDependency", "ProcessExit",
      "RecoverBehavior"] then "P3"
  else "P4"

/-- Modelled from the spec: the returns detector (section 4.2; the
analysis sources are not under `src/`).  Each result parameter emits
`ErrorReturn` (target: the name if named, else "error") or `ReturnValue`
(target: the textual type); a named error result assigned within a
deferred block additionally emits `DeferredReturnMutation`. -/
def returnsEffects (f : FuncDef) : List PreEffect :=
  (f.results.map fun r =>
    if r.isErrorType then
      { kind := "ErrorReturn",
        target := if r.name ≠ "" then r.name else "error",
        location := f.location,
        description := "returns error" }
    else
      { kind := "ReturnValue", target := r.typeString,
        location := f.location,
        description := "returns " ++ r.typeString })
  ++ f.results.filterMap fun r =>
    if r.isErrorType ∧ r.assignedInDefer ∧ r.name ≠ "" then
      some { kind := "DeferredReturnMutation", target := r.name,
             location := f.location,
             description := "named result " ++ r.name ++
               " assigned in deferred block" }
    else none

/-- The body of the mutation detector's walk: an assignment rooted at
the receiver emits `ReceiverMutation` only when the receiver is a
pointer; one rooted at a pointer-like parameter emits
`PointerArgMutation`. -/
def rawMutationEffects (f : FuncDef) : List PreEffect :=
  f.body.filterMap fun asg =>
    match asg.root with
    | .receiverField field =>
      match f.receiver with
      | some r =>
          if r.isPointer then
            some { kind := "ReceiverMutation", target := field,
                   location := asg.location,
                   description := "mutates receiver field " ++ field }
          else none
      | none => none
    | .paramName n =>
        if f.params.any fun p => p.name == n && p.pointerLike then
          some { kind := "PointerArgMutation", target := n,
                 location := asg.location,
                 description := "mutates pointer argument " ++ n }
        else none
    | .other => none

/-- Keep the first occurrence of each (kind, target) pair. -/
def dedupeGo (seen : List (String × String)) :
    List PreEffect → List PreEffect
  | [] => []
  | e :: rest =>
    if (e.kind, e.target) ∈ seen then dedupeGo seen rest
    else e :: dedupeGo ((e.kind, e.target) :: seen) rest

/-- Modelled from the spec: the mutation detector (section 4.2; the
analysis sources are not under `src/`).  A field mutated twice yields
one effect at the first occurrence. -/
def mutationEffects (f : FuncDef) : List PreEffect :=
  dedupeGo [] (rawMutationEffects f)

/-- The effect ordering key of the driver: kind, then location. -/
def effLE (x y : PreEffect) : Bool :=
  decide (x.kind < y.kind) ||
    (decide (x.kind = y.kind) && decide (x.location ≤ y.location))

/-- Insert into a sorted effect list. -/
def insertSorted (e : PreEffect) : List PreEffect → List PreEffect
  | [] => [e]
  | x :: xs => if effLE e x then e :: x :: xs else x :: insertSorted e xs

/-- Sort effects by (kind, location). -/
def sortEffects : List PreEffect → List PreEffect
  | [] => []
  | e :: xs => insertSorted e (sortEffects xs)

/-- The receiver string of a function target: `*T` or `T`. -/
def receiverString (f : FuncDef) : String :=
  match f.receiver with
  | none => ""
  | some r => if r.isPointer then "*" ++ r.typeName else r.typeName

/-- Modelled from the spec: `analysis.AnalyzeFunction` (section 4.3; the
analysis sources are not under `src/`).  Run the per-function detectors,
sort by (kind, location), assign stable IDs, wrap in an
`AnalysisResult`. -/
def AnalyzeFunction (pkg : String) (f : FuncDef) : AnalysisResult :=
  let effects := sortEffects (returnsEffects f ++ mutationEffects f)
  let ses := effects.map fun e =>
    { id := GenerateID pkg f.name e.kind e.location
      type := e.kind
      tier := TierOf e.kind
      location := e.location
      description := e.description
      target := e.target
      classification := none : SideEffect }
  { target := { package := pkg, function := f.name,
                receiver := receiverString f, signature := f.signature,
                location := f.location }
    sideEffects := ses
    metadata := { gazeVersion := "dev", goVersion := "go",
                  durationMs := 0, warnings := [] } }

/-- Insertion keeps exactly the old elements plus the new one. -/
theorem mem_insertSorted (x e : PreEffect) (l : List PreEffect) :
    x ∈ insertSorted e l ↔ x = e ∨ x ∈ l := by
  induction l with
  | nil => simp [insertSorted]
  | cons y ys ih =>
      unfold insertSorted
      by_cases h : effLE e y = true
      · simp [h]
      · simp only [Bool.not_eq_true] at h
        simp [h, ih]
        tauto

/-- Sorting keeps exactly the elements. -/
theorem mem_sortEffects (x : PreEffect) (l : List PreEffect) :
    x ∈ sortEffects l ↔ x ∈ l := by
  induction l with
  | nil => simp [sortEffects]
  | cons y ys ih =>
      unfold sortEffects
      rw [mem_insertSorted]
      simp [ih]

/-- Deduplication only drops elements. -/
theorem mem_dedupeGo (x : PreEffect) (seen : List (String × String))
    (l : List PreEffect) : x ∈ dedupeGo seen l → x ∈ l := by
  induction l generalizing seen with
  | nil => simp [dedupeGo]
  | cons e rest ih =>
      unfold dedupeGo
      by_cases h : (e.kind, e.target) ∈ seen
      · intro hx
        rw [if_pos h] at hx
        exact List.mem_cons_of_mem e (ih _ hx)
      · intro hx
        rw [if_neg h] at hx
        rcases List.mem_cons.mp hx with rfl | hx'
        · exact List.mem_cons_self _ _
        · exact List.mem_cons_of_mem e (ih _ hx')

/-- C9: for every method whose receiver is a value (non-pointer) type,
the analysis result of `AnalyzeFunction` contains no `ReceiverMutation`
effect, even when the body assigns to fields of the receiver copy. -/
theorem analyzeFunction_value_receiver_spec (pkg : String) (f : FuncDef)
    (r : Receiver) (hrecv : f.receiver = some r)
    (hval : r.isPointer = false) :
    ∀ se ∈ (AnalyzeFunction pkg f).sideEffects,
      se.type ≠ "ReceiverMutation" := by
  intro se hse
  simp only [AnalyzeFunction, List.mem_map] at hse
  obtain ⟨e, he, rfl⟩ := hse
  show e.kind ≠ "ReceiverMutation"
  rw [mem_sortEffects, List.mem_append] at he
  rcases he with he | he
  · simp only [returnsEffects, List.mem_append, List.mem_map,
      List.mem_filterMap] at he
    rcases he with ⟨rp, _, rfl⟩ | ⟨rp, _, hsome⟩
    · by_cases herr : rp.isErrorType = true
      · simp [herr]
      · simp only [Bool.not_eq_true] at herr
        simp [herr]
    · by_cases hc : rp.isErrorType = true ∧ rp.assignedInDefer = true ∧
          rp.name ≠ ""
      · rw [if_pos hc] at hsome
        injection hsome with hsome
        subst hsome
        simp
      · rw [if_neg hc] at hsome
        exact absurd hsome (by simp)
  · have he' := mem_dedupeGo e [] _ he
    simp only [rawMutationEffects, List.mem_filterMap] at he'
    obtain ⟨asg, _, hsome⟩ := he'
    cases hroot : asg.root with
    | receiverField field =>
        rw [hroot] at hsome
        dsimp only at hsome
        rw [hrecv] at hsome
        dsimp only at hsome
        rw [hval] at hsome
        simp at hsome
    | paramName n =>
        rw [hroot] at hsome
        dsimp only at hsome
        by_cases hp : (f.params.any fun p => p.name == n && p.pointerLike) = true
        · rw [if_pos hp] at hsome
          injection hsome with hsome
          subst hsome
          simp
        · rw [if_neg hp] at hsome
          exact absurd hsome (by simp)
    | other =>
        rw [hroot] at hsome
        dsimp only at hsome
        exact absurd hsome (by simp)

/-- C9 witness: the `ValueReceiverTrap` shape — a value-receiver method
whose body assigns to a field of the receiver copy — yields no
`ReceiverMutation`. -/
theorem analyzeFunction_value_receiver_spec_witness :
    ((AnalyzeFunction "example.com/mutation"
        (FuncDef.mk "ValueReceiverTrap" (some (Receiver.mk "Counter" false))
          [] [] [Assignment.mk (AssignRoot.receiverField "count") "m.go:5:2"]
          "m.go:4:1" "func()")).sideEffects.all
      fun se => se.type != "ReceiverMutation") = true := by
  rw [List.all_eq_true]
  intro se hse
  have h := analyzeFunction_value_receiver_spec "example.com/mutation"
    (FuncDef.mk "ValueReceiverTrap" (some (Receiver.mk "Counter" false))
      [] [] [Assignment.mk (AssignRoot.receiverField "count") "m.go:5:2"]
      "m.go:4:1" "func()")
    (Receiver.mk "Counter" false) rfl rfl se hse
  simpa using h

end Gaze
